import Mathlib

/-!
Shallow embedding of the `ctx` crate (request-scoped context propagation:
root/background, cancel, deadline/timeout and value nodes).

Modelling conventions:
- `Instant` and `Duration` are `Nat` (absolute ticks / tick counts).  Rust's
  `Instant - Instant` goes through `Instant::duration_since`, which saturates
  to the zero duration when the right operand is later; `Nat` subtraction has
  exactly this saturating behaviour.
- `Poll<(), ContextError>` is `Result<Async<()>, ContextError>`, embedded as
  `Except ContextError Async` with `Async ::= Ready | NotReady`
  (`Ok(Async::NotReady)` is the "Pending" outcome of the spec).
- The external timer collaborator (`tokio_timer`) is embedded as a `Sleep`
  record: the absolute instant at which the one-shot timer fires plus a flag
  recording whether the timer service accepted the entry.  Polling a sleep at
  time `now` yields `Ready` once `now` has reached the instant, `NotReady`
  before it, and an error when the entry was rejected.
- A `Task` (the waiter registered by `WithCancel::poll`) is identified by a
  `Nat`; `task::current()` is an explicit `cur` argument to `poll`, and
  `task.will_notify_current()` is identity of those numbers.  `notify()` only
  wakes an execution context, it changes none of the state modelled here.
- Type-erased `Any` values with `downcast_ref::<T>` are embedded as a pair of
  a type tag (`Nat`) and a payload (`Nat`); a downcast succeeds exactly when
  the requested tag equals the stored tag.
-/

namespace Ctx

/-- `ContextError` from `src/lib.rs`. -/
inductive ContextError
  | Canceled
  | DeadlineExceeded
  | DeadlineTooLong
deriving DecidableEq

/-- `futures::Async<()>`: a resolved (`Ready`) or still pending (`NotReady`)
completion signal. -/
inductive Async
  | Ready
  | NotReady
deriving DecidableEq

/-- `Poll<(), ContextError> = Result<Async<()>, ContextError>`. -/
abbrev PollResult := Except ContextError Async

instance : DecidableEq PollResult := fun a b =>
  match a, b with
  | .ok x, .ok y => decidable_of_iff (x = y) (by simp)
  | .error x, .error y => decidable_of_iff (x = y) (by simp)
  | .ok _, .error _ => isFalse (by simp)
  | .error _, .ok _ => isFalse (by simp)

/-- The external one-shot timer entry (`tokio_timer::Sleep`): the absolute
instant it fires at, and whether the timer service accepted the entry. -/
structure Sleep where
  wakeAt : Nat
  accepted : Bool
deriving DecidableEq

/-- Polling a timer entry at time `now`: `Ready` once the instant is reached,
`NotReady` before it, error when the entry was rejected by the service. -/
def Sleep.poll (s : Sleep) (now : Nat) : Except Unit Async :=
  if s.accepted then
    if s.wakeAt ≤ now then .ok .Ready else .ok .NotReady
  else
    .error ()

/-- The context tree.  One constructor per node kind:
- `background` (`src/lib.rs`, module `background`): no parent, no state;
- `withCancel` (`src/with_cancel.rs`, `WithCancel`): parent, shared
  cancellation flag, waiter slot (`handle`) holding at most one task id;
- `withValue` (`src/with_value.rs`, `WithValue<V>`): parent plus one stored
  value, embedded as (type tag, payload);
- `withDeadline` (`src/with_deadline.rs`, `WithDeadline<C>`): parent (which
  `with_timeout` always builds as a cancel node), the absolute deadline
  instant `whenAt` (field `when` in the source) and the scheduled timer. -/
inductive Context
  | background
  | withCancel (parent : Context) (canceled : Bool) (handle : Option Nat)
  | withValue (parent : Context) (tag : Nat) (payload : Nat)
  | withDeadline (parent : Context) (whenAt : Nat) (timer : Sleep)
deriving DecidableEq

/-- `Future::poll`, dispatched over the node kinds, at current task `cur` and
current time `now`.  Returns the poll result together with the possibly
updated node (polling mutates the waiter slot of cancel nodes).

- `Background::poll` (`src/lib.rs`): `Ok(Async::NotReady)`.
- `WithCancel::poll` (`src/with_cancel.rs` lines 32-54): if the canceled flag
  is set return `Err(Canceled)` before touching the parent; otherwise poll the
  parent and, exactly when the parent is `NotReady`, register (or refresh) the
  current task in the waiter slot, leaving a slot that would already notify
  the current task untouched.
- `WithValue::poll` (`src/with_value.rs` lines 36-38): `Ok(Async::NotReady)`,
  unconditionally — the parent is not polled.
- `WithDeadline::poll` (`src/with_deadline.rs` lines 35-41): match on the
  timer first — fired gives `Err(DeadlineExceeded)`, a rejected entry gives
  `Err(DeadlineTooLong)`, and only a still-pending timer delegates to the
  parent (the inner cancel node). -/
def Context.poll (cur now : Nat) : Context → PollResult × Context
  | .background => (.ok .NotReady, .background)
  | .withCancel parent canceled handle =>
    if canceled then
      (.error .Canceled, .withCancel parent canceled handle)
    else
      match parent.poll cur now with
      | (.ok .NotReady, parent') =>
        let mustUpdate : Bool :=
          match handle with
          | some t => if t = cur then false else true
          | none => true
        let handle' := if mustUpdate then some cur else handle
        (.ok .NotReady, .withCancel parent' canceled handle')
      | (r, parent') => (r, .withCancel parent' canceled handle)
  | .withValue parent tag payload => (.ok .NotReady, .withValue parent tag payload)
  | .withDeadline parent whenAt timer =>
    match timer.poll now with
    | .ok .Ready => (.error .DeadlineExceeded, .withDeadline parent whenAt timer)
    | .ok .NotReady =>
      match parent.poll cur now with
      | (r, parent') => (r, .withDeadline parent' whenAt timer)
    | .error _ => (.error .DeadlineTooLong, .withDeadline parent whenAt timer)

/-- `Context::deadline` (`src/lib.rs` lines 35-37) asks the inner node:
the trait default and `WithCancel::deadline` / `WithValue::deadline`
(`src/with_cancel.rs` lines 15-17, `src/with_value.rs` lines 16-18) answer
`None`; `WithDeadline::deadline` answers `Some(self.when)`
(`src/with_deadline.rs` lines 18-20).  No ancestor is consulted. -/
def Context.deadline : Context → Option Nat
  | .background => none
  | .withCancel _ _ _ => none
  | .withValue _ _ _ => none
  | .withDeadline _ whenAt _ => some whenAt

/-- `InnerContext::parent` per node kind: the trait default (`src/lib.rs`
lines 95-97) answers `None` (background, and `WithDeadline`, which does not
override it); `WithValue::parent` answers the parent handle
(`src/with_value.rs` lines 25-27); `WithCancel::parent` answers
`self.parent.0.parent()` — the parent node's own `parent()` —
(`src/with_cancel.rs` lines 23-25). -/
def Context.parent : Context → Option Context
  | .background => none
  | .withCancel p _ _ => Context.parent p
  | .withValue p _ _ => some p
  | .withDeadline _ _ _ => none

mutual

/-- The typed lookup `Context::value::<T>` (`src/lib.rs` lines 39-51): take
the node's own type-erased entry, downcast it (tag comparison), and on a miss
fall back to `ctx.parent().and_then(|parent| parent.value())`.
`Context.valueUp` is that fallback, with each node kind's `parent()` method
(see `Context.parent`) unfolded into the match. -/
def Context.value (tag : Nat) (c : Context) : Option Nat :=
  match c with
  | .background => none
  | .withDeadline _ _ _ => none
  | .withValue p t v => if t = tag then some v else Context.value tag p
  | .withCancel p _ _ => Context.valueUp tag p

/-- `ctx.parent().and_then(|parent| parent.value())` for a node whose own
entry missed, where the node's `parent()` is `p.parent()` for the parent
handle `p` (the `WithCancel` case of `Context.value`). -/
def Context.valueUp (tag : Nat) (c : Context) : Option Nat :=
  match c with
  | .background => none
  | .withDeadline _ _ _ => none
  | .withValue p _ _ => Context.value tag p
  | .withCancel p _ _ => Context.valueUp tag p

end

/-- `background()` (`src/lib.rs` lines 144-146). -/
def background : Context := .background

/-- The context half of `with_cancel(parent)` (`src/with_cancel.rs` lines
76-96): a fresh cancel node, flag unset, waiter slot empty. -/
def with_cancel (parent : Context) : Context := .withCancel parent false none

/-- `with_value(parent, val)` (`src/with_value.rs` lines 62-69). -/
def with_value (parent : Context) (tag payload : Nat) : Context :=
  .withValue parent tag payload

/-- The context half of `with_timeout(parent, timeout)`
(`src/with_deadline.rs` lines 73-84), called at time `now`: wrap the parent
in a cancel node, record `when = now + timeout`, schedule the one-shot timer
for that instant.  `accepted` records the external timer service's answer
(`timer.sleep` itself defers any rejection to the entry's poll). -/
def with_timeout (parent : Context) (now timeout : Nat) (accepted : Bool) : Context :=
  .withDeadline (with_cancel parent) (now + timeout) ⟨now + timeout, accepted⟩

/-- `with_deadline(parent, deadline)` (`src/with_deadline.rs` lines 45-49),
called at time `now`: `with_timeout(parent, deadline - Instant::now())`,
where the instant subtraction saturates to the zero duration (exactly `Nat`
subtraction). -/
def with_deadline (parent : Context) (now dl : Nat) (accepted : Bool) : Context :=
  with_timeout parent now (dl - now) accepted

/-- The cancel trigger returned alongside a context (`src/with_cancel.rs`
lines 87-94): set the shared canceled flag of the cancel node to `true` (and
notify the registered waiter, which changes none of the modelled state).  For
a deadline node the returned trigger is the inner cancel node's
(`src/with_deadline.rs` lines 77-83); for the other node kinds no trigger is
ever handed out, so the operation leaves them unchanged. -/
def Context.cancel : Context → Context
  | .withCancel parent _ handle => .withCancel parent true handle
  | .withDeadline parent whenAt timer => .withDeadline parent.cancel whenAt timer
  | c => c

/-- A sequence of polls: fold `Context.poll` over successive
(current task, current time) pairs, threading the updated node, and collect
each call's result. -/
def Context.pollSeq : Context → List (Nat × Nat) → List PollResult
  | _, [] => []
  | c, (cur, now) :: rest =>
    match c.poll cur now with
    | (r, c') => r :: c'.pollSeq rest

/-- Triggering twice is the same as triggering once: the trigger only writes
`true` into the one shared flag it targets. -/
theorem Context.cancel_idem (c : Context) :
    Context.cancel (Context.cancel c) = Context.cancel c := by
  induction c with
  | background => rfl
  | withCancel p cf h ih => rfl
  | withValue p t v ih => rfl
  | withDeadline p w tm ih => simp [Context.cancel, ih]

/-- Claim C1: for every parent context, once the cancel trigger of
`with_cancel(parent)` has been invoked, `poll` returns `Done(Err(Canceled))`;
the flag check precedes delegation, so this holds for a cancel node in any
prior state (any flag, any waiter slot) and regardless of the parent's
state. -/
theorem C1_canceled_poll_returns_canceled (parent : Context) (canceled : Bool)
    (handle : Option Nat) (cur now : Nat) :
    (((with_cancel parent).cancel).poll cur now).1 = .error .Canceled
  ∧ ((Context.withCancel parent canceled handle).cancel.poll cur now).1
      = .error .Canceled := by
  constructor <;> simp [with_cancel, Context.cancel, Context.poll]

/-- Claim C2: cancellation propagates downward: with
`(p, cancelP) = with_cancel(background())` and `(c, _) = with_cancel(p)`,
after `cancelP()` the poll of `c` yields `Done(Err(Canceled))`; in general a
cancel node whose own flag is unset propagates a parent's terminal error
unchanged. -/
theorem C2_parent_cancel_propagates (pc : Bool) (ph ch : Option Nat)
    (cur now : Nat) (parent : Context) (e : ContextError) :
    ((Context.withCancel ((Context.withCancel Context.background pc ph).cancel)
        false ch).poll cur now).1 = .error .Canceled
  ∧ ((parent.poll cur now).1 = .error e →
      ((Context.withCancel parent false ch).poll cur now).1 = .error e) := by
  constructor
  · simp [Context.cancel, Context.poll]
  · intro h
    rcases hp : parent.poll cur now with ⟨r, p'⟩
    rw [hp] at h
    simp only at h
    subst h
    simp [Context.poll, hp]

theorem C2_parent_cancel_propagates_witness :
    ((Context.withCancel ((Context.withCancel Context.background false none).cancel)
        false none).poll 0 0).1 = .error .Canceled
  ∧ ((Context.withCancel (Context.withCancel Context.background true none)
        false none).poll 0 0).1 = .error .Canceled :=
  ⟨(C2_parent_cancel_propagates false none none 0 0
      (Context.withCancel Context.background true none) .Canceled).1,
   (C2_parent_cancel_propagates false none none 0 0
      (Context.withCancel Context.background true none) .Canceled).2 (by decide)⟩

/-- Claim C3, counterexample: polling a value node over a canceled parent
yields `Pending`, while polling the parent itself yields
`Done(Err(Canceled))` — so a value node's `poll` is not a pass-through of its
parent's `poll`. -/
theorem C3_counterexample :
    ¬ (((with_value (Context.withCancel Context.background true none) 0 0).poll 0 0).1
        = ((Context.withCancel Context.background true none).poll 0 0).1) := by
  decide

/-- Claim C3, amended: a value node's `poll` always returns `Pending`
(`Ok(Async::NotReady)`) and leaves the node unchanged, whatever the parent's
state; the parent is never polled, so a canceled or expired parent is not
reported through a value node. -/
theorem C3_value_poll_always_pending (parent : Context) (tag payload cur now : Nat) :
    (with_value parent tag payload).poll cur now
      = (.ok .NotReady, with_value parent tag payload) := rfl

/-- Claim C4, counterexample: wrapping a deadline-bearing context with
`with_cancel` hides its deadline — the wrapper reports no deadline while the
wrapped context reports `Some 5`, so `deadline()` does not search
ancestors. -/
theorem C4_counterexample :
    ¬ ((with_cancel (Context.withDeadline Context.background 5 ⟨5, true⟩)).deadline
        = (Context.withDeadline Context.background 5 ⟨5, true⟩).deadline)
  ∧ (Context.withDeadline Context.background 5 ⟨5, true⟩).deadline = some 5 := by
  decide

/-- Claim C4, amended: `deadline()` reports only the node's own deadline —
`Some` of the stored instant on a deadline node and `None` on the root and on
every cancel or value node, whatever deadlines the ancestors carry; no
ancestor is consulted. -/
theorem C4_deadline_is_own_only (parent : Context) (canceled : Bool)
    (handle : Option Nat) (tag payload whenAt : Nat) (timer : Sleep) :
    Context.background.deadline = none
  ∧ (Context.withCancel parent canceled handle).deadline = none
  ∧ (Context.withValue parent tag payload).deadline = none
  ∧ (Context.withDeadline parent whenAt timer).deadline = some whenAt :=
  ⟨rfl, rfl, rfl, rfl⟩

/-- Claim C5: `with_deadline(parent, dl)` called at time `now` with `dl`
already passed builds the same context as `with_timeout(parent, 0)` (the
instant subtraction saturates to the zero duration, so construction
succeeds), and its first poll — at any time `t ≥ now` — returns
`Done(Err(DeadlineExceeded))`. -/
theorem C5_past_deadline_no_panic (parent : Context) (now dl cur t : Nat)
    (hpast : dl ≤ now) (ht : now ≤ t) :
    with_deadline parent now dl true = with_timeout parent now 0 true
  ∧ ((with_deadline parent now dl true).poll cur t).1 = .error .DeadlineExceeded := by
  have h0 : dl - now = 0 := Nat.sub_eq_zero_of_le hpast
  constructor
  · simp [with_deadline, h0]
  · simp [with_deadline, with_timeout, h0, Context.poll, Sleep.poll, ht]

theorem C5_past_deadline_no_panic_witness :
    with_deadline background 5 3 true = with_timeout background 5 0 true
  ∧ ((with_deadline background 5 3 true).poll 0 5).1 = .error .DeadlineExceeded :=
  C5_past_deadline_no_panic background 5 3 0 5 (by decide) (by decide)

/-- Claim C6: a deadline node's poll checks the timer first — a fired timer
yields `Done(Err(DeadlineExceeded))`; a rejected timer entry yields
`Done(Err(DeadlineTooLong))` — in particular `with_timeout` whose entry the
timer service rejected still constructs, and the failure surfaces on first
poll; a still-pending timer delegates to the inner (cancel) node's poll. -/
theorem C6_deadline_poll_algorithm (inner parent : Context)
    (whenAt cur now cnow timeout : Nat) :
    (∀ wake, wake ≤ now →
      ((Context.withDeadline inner whenAt ⟨wake, true⟩).poll cur now).1
        = .error .DeadlineExceeded)
  ∧ (∀ wake, now < wake →
      ((Context.withDeadline inner whenAt ⟨wake, true⟩).poll cur now).1
        = (inner.poll cur now).1)
  ∧ (∀ wake,
      ((Context.withDeadline inner whenAt ⟨wake, false⟩).poll cur now).1
        = .error .DeadlineTooLong)
  ∧ ((with_timeout parent cnow timeout false).poll cur now).1
      = .error .DeadlineTooLong := by
  refine ⟨?_, ?_, ?_, ?_⟩
  · intro wake h
    simp [Context.poll, Sleep.poll, h]
  · intro wake h
    rcases hp : inner.poll cur now with ⟨r, p'⟩
    simp [Context.poll, Sleep.poll, Nat.not_le.mpr h, hp]
  · intro wake
    simp [Context.poll, Sleep.poll]
  · simp [with_timeout, Context.poll, Sleep.poll]

theorem C6_deadline_poll_algorithm_witness :
    ((Context.withDeadline Context.background 0 ⟨2, true⟩).poll 0 3).1
      = .error .DeadlineExceeded
  ∧ ((Context.withDeadline Context.background 0 ⟨7, true⟩).poll 0 3).1
      = (Context.background.poll 0 3).1
  ∧ ((Context.withDeadline Context.background 0 ⟨2, false⟩).poll 0 3).1
      = .error .DeadlineTooLong
  ∧ ((with_timeout Context.background 1 4 false).poll 0 3).1
      = .error .DeadlineTooLong := by
  obtain ⟨h1, h2, h3, h4⟩ :=
    C6_deadline_poll_algorithm Context.background Context.background 0 0 3 1 4
  exact ⟨h1 2 (by decide), h2 7 (by decide), h3 2, h4⟩

/-- Claim C7: value lookup is nearest-wins with none-on-miss: on
`with_value(with_value(parent, v1), v2)` with both entries under the same
type tag, lookup of that tag returns `v2` (the nearer entry shadows the
ancestor's); lookup of a tag matching no entry on the chain returns `none`,
not an error. -/
theorem C7_value_nearest_wins_none_on_miss (parent : Context)
    (t v1 v2 t1 t2 t3 w1 w2 : Nat) :
    Context.value t (with_value (with_value parent t v1) t v2) = some v2
  ∧ (t3 ≠ t1 → t3 ≠ t2 →
      Context.value t3 (with_value (with_value background t1 w1) t2 w2) = none) := by
  constructor
  · simp [Context.value, with_value]
  · intro h1 h2
    simp [Context.value, with_value, background, Ne.symm h1, Ne.symm h2]

theorem C7_value_nearest_wins_none_on_miss_witness :
    Context.value 9 (with_value (with_value background 9 4) 9 6) = some 6
  ∧ Context.value 3 (with_value (with_value background 1 4) 2 6) = none := by
  obtain ⟨hA, hB⟩ := C7_value_nearest_wins_none_on_miss background 9 4 6 1 2 3 4 6
  exact ⟨hA, hB (by decide) (by decide)⟩

/-- Claim C8: the cancel trigger is idempotent: invoking it `n ≥ 1` times
yields exactly the state that invoking it once yields — so every subsequent
`poll`, `deadline` and `value` observation agrees as well. -/
theorem C8_cancel_trigger_idempotent (c : Context) (n cur now tag : Nat)
    (hn : 1 ≤ n) :
    Context.cancel^[n] c = Context.cancel c
  ∧ (Context.cancel^[n] c).poll cur now = (Context.cancel c).poll cur now
  ∧ (Context.cancel^[n] c).deadline = (Context.cancel c).deadline
  ∧ Context.value tag (Context.cancel^[n] c) = Context.value tag (Context.cancel c) := by
  obtain ⟨m, rfl⟩ : ∃ m, n = m + 1 := ⟨n - 1, (Nat.succ_pred_eq_of_pos hn).symm⟩
  clear hn
  have key : Context.cancel^[m + 1] c = Context.cancel c := by
    induction m with
    | zero => simp
    | succ k ih => rw [Function.iterate_succ_apply', ih, Context.cancel_idem]
  exact ⟨key, by rw [key], by rw [key], by rw [key]⟩

theorem C8_cancel_trigger_idempotent_witness :
    Context.cancel^[3] (with_cancel background) = Context.cancel (with_cancel background)
  ∧ (Context.cancel^[3] (with_cancel background)).poll 0 0
      = (Context.cancel (with_cancel background)).poll 0 0
  ∧ (Context.cancel^[3] (with_cancel background)).deadline
      = (Context.cancel (with_cancel background)).deadline
  ∧ Context.value 0 (Context.cancel^[3] (with_cancel background))
      = Context.value 0 (Context.cancel (with_cancel background)) :=
  C8_cancel_trigger_idempotent (with_cancel background) 3 0 0 0 (by decide)

/-- Claim C9: the root context never resolves: every poll in any sequence of
polls of `background()` (at any task ids and times) returns `Pending`, and
the root has neither a deadline nor a value. -/
theorem C9_background_never_resolves (l : List (Nat × Nat)) (tag : Nat) :
    Context.background.pollSeq l = l.map (fun _ => .ok .NotReady)
  ∧ Context.background.deadline = none
  ∧ Context.value tag Context.background = none := by
  refine ⟨?_, rfl, by simp [Context.value]⟩
  induction l with
  | nil => rfl
  | cons p rest ih =>
    rcases p with ⟨cur, now⟩
    simp [Context.pollSeq, Context.poll, ih]

/-- Claim C10: in a deadline node the timer check precedes delegation: when
the timer has fired and the inner cancel node's trigger has also been
invoked, poll returns `Done(Err(DeadlineExceeded))`, not
`Done(Err(Canceled))`. -/
theorem C10_deadline_wins_tie (parent : Context) (handle : Option Nat)
    (whenAt wake cur now : Nat) (hfired : wake ≤ now) :
    ((Context.withDeadline (Context.withCancel parent true handle) whenAt
        ⟨wake, true⟩).poll cur now).1 = .error .DeadlineExceeded := by
  simp [Context.poll, Sleep.poll, hfired]

theorem C10_deadline_wins_tie_witness :
    ((Context.withDeadline (Context.withCancel Context.background true none) 4
        ⟨4, true⟩).poll 2 6).1 = .error .DeadlineExceeded :=
  C10_deadline_wins_tie Context.background none 4 4 2 6 (by decide)

end Ctx
